import Mathlib

/-
Verification development for the NYC public-transport trip-time simulator
(`src/simulations.py`, `src/station_utilities.py`).

External effects are modelled by oracle functions supplied as parameters:
the haversine distance is an opaque function `ℚ × ℚ → ℚ × ℚ → ℚ`, a
Google-Maps directions call is `Coord → Coord → Option ℚ` (`none` models an
empty result list), a Distance-Matrix element result is `Option ℚ` (`none`
models a non-`OK` status), and a request-level exception of a sub-batch is a
boolean oracle indexed by the block's index offsets.  `NaN` matrix cells are
modelled as `none`.  Python's `int(np.sqrt(max_elements))` is modelled as the
exact integer square root `Nat.sqrt`.
-/

namespace NYCTransport

/-- A coordinate pair `(latitude, longitude)`, as the Python tuples. -/
abbrev Coord := ℚ × ℚ

/-- A travel-time matrix as written by `batch_distance_matrix_call`:
`none` models a `NaN` cell of the `np.full(..., np.nan)` array. -/
abbrev Mat := Nat → Nat → Option ℚ

/-- A single numpy cell assignment `time_matrix[r, c] = v`. -/
def updCell (M : Mat) (r c : Nat) (v : ℚ) : Mat :=
  fun I J => if I = r ∧ J = c then some v else M I J

/-- `Python:` `for di, element in enumerate(origin_result['elements']): ...` —
one row of the response of one sub-batch.  `f o d = none` models
`element['status'] != 'OK'` (the cell is left untouched, a warning is
printed); `f o d = some v` models `time_matrix[i+oi, j+di] = v`. -/
def parseRow {β : Type*} (f : β → Option ℚ) (bd : List β) (r c : Nat) (M : Mat) : Mat :=
  match bd with
  | [] => M
  | d :: rest =>
    match f d with
    | some v => parseRow f rest r (c + 1) (updCell M r c v)
    | none => parseRow f rest r (c + 1) M

/-- `Python:` `for oi, origin_result in enumerate(result['rows']): ...` —
all rows of the response of one sub-batch, written at offset `(r, c)`. -/
def parseRows {α β : Type*} (f : α → β → Option ℚ) (bo : List α) (bd : List β)
    (r c : Nat) (M : Mat) : Mat :=
  match bo with
  | [] => M
  | o :: rest => parseRows f rest bd (r + 1) c (parseRow (f o) bd r c M)

/-- `Python:` `range(0, n, step)` (for `step ≥ 1`). -/
def rangeStep (n step : Nat) : List Nat :=
  (List.range ((n + step - 1) / step)).map (· * step)

/-- `Python:` the inner loop `for j in range(0, num_destinations, max_dests_per_batch)`
of `batch_distance_matrix_call`.  `fail bi bj = true` models the request for
the sub-batch at offsets `(bi, bj)` raising (the `except` branch: a warning is
printed and nothing is written). -/
def runBlocksJ {α β : Type*} (f : α → β → Option ℚ) (fail : Nat → Nat → Bool)
    (origins : List α) (dests : List β) (maxO maxD bi : Nat)
    (bjs : List Nat) (M : Mat) : Mat :=
  match bjs with
  | [] => M
  | bj :: rest =>
    let M' := if fail bi bj then M
              else parseRows f ((origins.drop bi).take maxO) ((dests.drop bj).take maxD) bi bj M
    runBlocksJ f fail origins dests maxO maxD bi rest M'

/-- `Python:` the outer loop `for i in range(0, num_origins, max_origins_per_batch)`
of `batch_distance_matrix_call`. -/
def runBlocksI {α β : Type*} (f : α → β → Option ℚ) (fail : Nat → Nat → Bool)
    (origins : List α) (dests : List β) (maxO maxD : Nat)
    (bis : List Nat) (M : Mat) : Mat :=
  match bis with
  | [] => M
  | bi :: rest =>
    runBlocksI f fail origins dests maxO maxD rest
      (runBlocksJ f fail origins dests maxO maxD bi (rangeStep dests.length maxD) M)

/-- `Simulator.batch_distance_matrix_call` (`simulations.py:154-208`), with the
element results of the external Distance-Matrix API modelled by the fixed
function `f` and request-level exceptions by `fail`. -/
def batch_distance_matrix_call {α β : Type*} (f : α → β → Option ℚ)
    (fail : Nat → Nat → Bool) (origins : List α) (destinations : List β)
    (max_elements : Nat) : Mat :=
  let maxO := min 25 (Nat.sqrt max_elements)
  let maxD := min 25 (max_elements / maxO)
  runBlocksI f fail origins destinations maxO maxD
    (rangeStep origins.length maxO) (fun _ _ => none)

/-- The list of `(batch_origins, batch_dests)` argument pairs of the
sub-requests issued by `batch_distance_matrix_call` (`simulations.py:184-195`). -/
def batch_requests {α β : Type*} (origins : List α) (destinations : List β)
    (max_elements : Nat) : List (List α × List β) :=
  let maxO := min 25 (Nat.sqrt max_elements)
  let maxD := min 25 (max_elements / maxO)
  (rangeStep origins.length maxO).flatMap fun bi =>
    (rangeStep destinations.length maxD).map fun bj =>
      ((origins.drop bi).take maxO, (destinations.drop bj).take maxD)

/-- How one response element combines with the previous content of its cell:
an `OK` element overwrites, a non-`OK` element leaves the cell alone. -/
def writeVal (x old : Option ℚ) : Option ℚ :=
  match x with
  | some v => some v
  | none => old

/-- The effect of one sub-batch (at offsets `(bi, bj)`, with origin slice `bo`
and destination slice `bd`) on the cell `(I, J)`. -/
def blockVal {α β : Type*} (f : α → β → Option ℚ) (bo : List α) (bd : List β)
    (bi bj I J : Nat) (old : Option ℚ) : Option ℚ :=
  if bi ≤ I ∧ bj ≤ J then
    writeVal ((bo[I - bi]?).bind fun o => (bd[J - bj]?).bind fun d => f o d) old
  else old

/-- Modelled from the spec: the matrix that a hypothetical single unbounded
Distance-Matrix call over the full origin and destination lists would produce —
entry `(i, j)` holds the duration for origin `i` and destination `j` when its
status is `OK`, and `NaN` otherwise. -/
def single_unbounded_call {α β : Type*} (f : α → β → Option ℚ)
    (origins : List α) (dests : List β) : Mat :=
  fun I J =>
    if h : I < origins.length ∧ J < dests.length then
      f (origins.get ⟨I, h.1⟩) (dests.get ⟨J, h.2⟩)
    else none

/-- A station row of the flat station tables of `StationFinder`
(`station_utilities.py:55-97`): `station_name`, `latitude`, `longitude`. -/
structure Station where
  station_name : String
  latitude : ℚ
  longitude : ℚ
deriving DecidableEq

/-- A row of the DataFrames built by `find_stations_within_radius` (and by the
nearest-station fallback of `pre_calculate_nearest_stations`): a station
together with its `distance_km` from the query point. -/
structure StationResult where
  station_name : String
  latitude : ℚ
  longitude : ℚ
  distance_km : ℚ
deriving DecidableEq

/-- The `StationFinder` state after initialization
(`station_utilities.py:43-45`): the two flat station tables and the recorded
set of original subway station names. -/
structure StationFinder where
  citibike_stations : List Station
  subway_stations : List Station
  original_subway_station_names : List String

/-- One network's half of `StationFinder.find_stations_within_radius`
(`station_utilities.py:216-245`): keep the stations whose `dist` distance from
the center is at most `radius_km`, tagged with that distance, then sort
ascending by `distance_km` (`sort_values('distance_km')`).  The haversine
formula is the opaque parameter `dist`. -/
def within_network (dist : Coord → Coord → ℚ) (stations : List Station)
    (latitude longitude radius_km : ℚ) : List StationResult :=
  List.insertionSort (fun a b => a.distance_km ≤ b.distance_km)
    (stations.filterMap fun row =>
      let distance := dist (latitude, longitude) (row.latitude, row.longitude)
      if distance ≤ radius_km then
        some ⟨row.station_name, row.latitude, row.longitude, distance⟩
      else none)

/-- `StationFinder.find_stations_within_radius` (`station_utilities.py:194-250`):
the pair of per-network result tables (`citibike` first, `subway` second). -/
def find_stations_within_radius (dist : Coord → Coord → ℚ) (f : StationFinder)
    (latitude longitude radius_km : ℚ) :
    List StationResult × List StationResult :=
  (within_network dist f.citibike_stations latitude longitude radius_km,
   within_network dist f.subway_stations latitude longitude radius_km)

instance : IsTotal StationResult (fun a b => a.distance_km ≤ b.distance_km) :=
  ⟨fun _ _ => le_total _ _⟩

instance : IsTrans StationResult (fun a b => a.distance_km ≤ b.distance_km) :=
  ⟨fun _ _ _ => le_trans⟩

/-- A row of a sample-point DataFrame: the `latitude` and `longitude`
columns. -/
structure Pt where
  latitude : ℚ
  longitude : ℚ
deriving DecidableEq

/-- `Simulator.METRO_SPEED` (km/h, `simulations.py:48`). -/
def METRO_SPEED : ℚ := 28

/-- `self.get_nearby_stations(location, radius_km)[mode]`
(`simulations.py:58-72` plus the dictionary lookup): `none` models the
`KeyError` raised by the lookup for a mode other than the two keys. -/
def get_network (dist : Coord → Coord → ℚ) (f : StationFinder) (mode : String)
    (loc : Coord) (radius_km : ℚ) : Option (List StationResult) :=
  if mode = "citibike" then
    some (within_network dist f.citibike_stations loc.1 loc.2 radius_km)
  else if mode = "subway" then
    some (within_network dist f.subway_stations loc.1 loc.2 radius_km)
  else none

/-- The fallback of `pre_calculate_nearest_stations`
(`simulations.py:100-119`): compute `distance_km` to every station of the
mode's table and take the row of the first minimum (pandas `idxmin`); `none`
when the table is empty (the inner `except` appends `None`). -/
def nearest_station_overall (dist : Coord → Coord → ℚ) (stations : List Station)
    (loc : Coord) : Option StationResult :=
  match stations with
  | [] => none
  | s :: rest =>
    some (rest.foldl
      (fun best row =>
        let d := dist loc (row.latitude, row.longitude)
        if d < best.distance_km then
          ⟨row.station_name, row.latitude, row.longitude, d⟩
        else best)
      ⟨s.station_name, s.latitude, s.longitude,
        dist loc (s.latitude, s.longitude)⟩)

/-- One step of `Simulator.pre_calculate_nearest_stations`
(`simulations.py:75-121`): the first station of the bounded radius search;
on `IndexError`/`KeyError`, the absolute nearest station of the mode's table
(the table is `citibike_stations` when `mode == 'citibike'`, else
`subway_stations`); `None` when that fails too. -/
def pre_calc_nearest (dist : Coord → Coord → ℚ) (f : StationFinder)
    (mode : String) (radius_km : ℚ) (p : Pt) : Option StationResult :=
  match get_network dist f mode (p.latitude, p.longitude) radius_km with
  | some (s :: _) => some s
  | _ =>
    nearest_station_overall dist
      (if mode = "citibike" then f.citibike_stations else f.subway_stations)
      (p.latitude, p.longitude)

/-- `Simulator.pre_calculate_nearest_stations` (`simulations.py:75-121`). -/
def pre_calculate_nearest_stations (dist : Coord → Coord → ℚ) (f : StationFinder)
    (mode : String) (radius_km : ℚ) (points : List Pt) :
    List (Option StationResult) :=
  points.map (pre_calc_nearest dist f mode radius_km)

/-- The oracles for the external effects of `Simulator`: `dist` is
`haversine.haversine` (km); `walk`, `transit` and `bike_directions` are
`gmaps.directions` calls of the respective mode (`none` models an empty result
list, `some t` the duration in seconds of the first leg; the departure time is
fixed within one run); `walkElem`/`bikeElem` are Distance-Matrix element
results, and `failWalkTo`/`failBike`/`failWalkFrom` the request-level
exception oracles of the three batched calls of the citibike branch. -/
structure Env where
  dist : Coord → Coord → ℚ
  walk : Coord → Coord → Option ℚ
  transit : Coord → Coord → Option ℚ
  bike_directions : Coord → Coord → Option ℚ
  walkElem : Coord → Coord → Option ℚ
  bikeElem : Coord → Coord → Option ℚ
  failWalkTo : Nat → Nat → Bool
  failBike : Nat → Nat → Bool
  failWalkFrom : Nat → Nat → Bool

/-- The Leg-2 transit duration of the subway matrix branch with its haversine
fallback (`simulations.py:449-454`, likewise `458-463`): the external transit
directions duration when a result exists, else the geometric estimate
`⌈dist / METRO_SPEED · 3600⌉` at metro speed. -/
def transit_leg (env : Env) (a b : Coord) : ℚ :=
  match env.transit a b with
  | some t => t
  | none => ((⌈env.dist a b / METRO_SPEED * 3600⌉ : ℤ) : ℚ)

/-- One `(i, j)` cell of the subway branch of
`Simulator.calculate_travel_time_matrix` (`simulations.py:417-476`): the
travel-time cell (`none` = `NaN`) and the route cell (`[]` = empty).  Any
exception inside the per-cell `try` yields `(NaN, [])`. -/
def subway_cell (env : Env) (f : StationFinder) (mode : String)
    (start_points end_points : List Pt)
    (src_stations_series dst_stations_series : List (Option StationResult))
    (i j : Nat) : Option ℚ × List Coord :=
  match src_stations_series.getD i none, dst_stations_series.getD j none with
  | some src_station, some dst_station =>
    let src : Coord := ((start_points.getD i ⟨0, 0⟩).latitude,
                        (start_points.getD i ⟨0, 0⟩).longitude)
    let dst : Coord := ((end_points.getD j ⟨0, 0⟩).latitude,
                        (end_points.getD j ⟨0, 0⟩).longitude)
    let src_station_coord : Coord := (src_station.latitude, src_station.longitude)
    let dst_station_coord : Coord := (dst_station.latitude, dst_station.longitude)
    match env.walk src src_station_coord with
    | none => (none, [])
    | some walk_1 =>
      if src_station.station_name ∉ f.original_subway_station_names then
        match (get_network env.dist f mode src_station_coord 5).bind
            (fun l => l.get? 1) with
        | none => (none, [])
        | some nearest_real_station =>
          let nearest_real_coords : Coord :=
            (nearest_real_station.latitude, nearest_real_station.longitude)
          let virtual_to_real_time : ℚ :=
            (⌈nearest_real_station.distance_km / METRO_SPEED * 3600⌉ : ℤ)
          let transit_time : ℚ :=
            match env.transit nearest_real_coords dst_station_coord with
            | some t => t
            | none =>
              (⌈env.dist nearest_real_coords dst_station_coord /
                METRO_SPEED * 3600⌉ : ℤ)
          match env.walk dst_station_coord dst with
          | none => (none, [])
          | some walk_2 =>
            (some (walk_1 + virtual_to_real_time + transit_time + walk_2),
             [src, src_station_coord, nearest_real_coords, dst_station_coord, dst])
      else
        let transit_time : ℚ :=
          match env.transit src_station_coord dst_station_coord with
          | some t => t
          | none =>
            (⌈env.dist src_station_coord dst_station_coord /
              METRO_SPEED * 3600⌉ : ℤ)
        match env.walk dst_station_coord dst with
        | none => (none, [])
        | some walk_2 =>
          (some (walk_1 + transit_time + walk_2),
           [src, src_station_coord, dst_station_coord, dst])
  | _, _ => (none, [])

/-- One `(i, j)` cell of the citibike branch of
`Simulator.calculate_travel_time_matrix` (`simulations.py:371-411`): the three
batched legs are combined, reading only the diagonal of the two walking
blocks.  The source writes the cells of valid `(i, j)` pairs in a loop over
`enumerate(valid_src_indices) × enumerate(valid_dst_indices)`; each cell is
written at most once, so the loop is expressed cell-wise here through the
position (`i_idx`, `j_idx`) of `i` (`j`) in the valid index lists; a pair
outside the enumeration keeps its initial `(NaN, empty)` cell. -/
def citibike_cell (start_points end_points : List Pt)
    (valid_src_indices valid_dst_indices : List Nat)
    (walk_to_src_matrix bike_matrix walk_from_dst_matrix : Mat)
    (valid_src_station_coords valid_dst_station_coords : List Coord)
    (i j : Nat) : Option ℚ × List Coord :=
  match (valid_src_indices.enum.find? fun p => p.2 == i),
        (valid_dst_indices.enum.find? fun p => p.2 == j) with
  | some (i_idx, _), some (j_idx, _) =>
    match walk_to_src_matrix i_idx i_idx, bike_matrix i_idx j_idx,
          walk_from_dst_matrix j_idx j_idx with
    | some walk_to, some bike_time, some walk_from =>
      (some (walk_to + bike_time + walk_from),
       [((start_points.getD i ⟨0, 0⟩).latitude,
         (start_points.getD i ⟨0, 0⟩).longitude),
        valid_src_station_coords.getD i_idx (0, 0),
        valid_dst_station_coords.getD j_idx (0, 0),
        ((end_points.getD j ⟨0, 0⟩).latitude,
         (end_points.getD j ⟨0, 0⟩).longitude)])
    | _, _, _ => (none, [])
  | _, _ => (none, [])

/-- Assemble the `num_starts × num_ends` travel-time and route matrices from a
cell function (row lists over `range`). -/
def matrix_of_cell (num_starts num_ends : Nat)
    (cell : Nat → Nat → Option ℚ × List Coord) :
    List (List (Option ℚ)) × List (List (List Coord)) :=
  ((List.range num_starts).map fun i =>
     (List.range num_ends).map fun j => (cell i j).1,
   (List.range num_starts).map fun i =>
     (List.range num_ends).map fun j => (cell i j).2)

/-- `Simulator.calculate_travel_time_matrix` (`simulations.py:335-478`): the
pair (travel-time matrix, route matrix).  `none` time cells model `NaN`; `[]`
route cells model both the written `[]` and the `None` of never-written
object-array cells (including the whole early-return matrices of line 368). -/
def calculate_travel_time_matrix (env : Env) (f : StationFinder) (mode : String)
    (start_points end_points : List Pt) :
    List (List (Option ℚ)) × List (List (List Coord)) :=
  let num_starts := start_points.length
  let num_ends := end_points.length
  let src_stations_series :=
    pre_calculate_nearest_stations env.dist f mode 5 start_points
  let dst_stations_series :=
    pre_calculate_nearest_stations env.dist f mode 5 end_points
  let valid_src_indices := (List.range num_starts).filter
    (fun i => (src_stations_series.getD i none).isSome)
  let valid_dst_indices := (List.range num_ends).filter
    (fun j => (dst_stations_series.getD j none).isSome)
  if valid_src_indices = [] ∨ valid_dst_indices = [] then
    matrix_of_cell num_starts num_ends (fun _ _ => (none, []))
  else if mode = "citibike" then
    let start_coords := valid_src_indices.map fun i =>
      ((start_points.getD i ⟨0, 0⟩).latitude, (start_points.getD i ⟨0, 0⟩).longitude)
    let end_coords := valid_dst_indices.map fun j =>
      ((end_points.getD j ⟨0, 0⟩).latitude, (end_points.getD j ⟨0, 0⟩).longitude)
    let valid_src_station_coords := valid_src_indices.map fun i =>
      (((src_stations_series.getD i none).getD ⟨"", 0, 0, 0⟩).latitude,
       ((src_stations_series.getD i none).getD ⟨"", 0, 0, 0⟩).longitude)
    let valid_dst_station_coords := valid_dst_indices.map fun j =>
      (((dst_stations_series.getD j none).getD ⟨"", 0, 0, 0⟩).latitude,
       ((dst_stations_series.getD j none).getD ⟨"", 0, 0, 0⟩).longitude)
    let walk_to_src_matrix := batch_distance_matrix_call env.walkElem
      env.failWalkTo start_coords valid_src_station_coords 100
    let bike_matrix := batch_distance_matrix_call env.bikeElem
      env.failBike valid_src_station_coords valid_dst_station_coords 100
    let walk_from_dst_matrix := batch_distance_matrix_call env.walkElem
      env.failWalkFrom valid_dst_station_coords end_coords 100
    matrix_of_cell num_starts num_ends
      (citibike_cell start_points end_points valid_src_indices valid_dst_indices
        walk_to_src_matrix bike_matrix walk_from_dst_matrix
        valid_src_station_coords valid_dst_station_coords)
  else
    matrix_of_cell num_starts num_ends
      (subway_cell env f mode start_points end_points
        src_stations_series dst_stations_series)

/-- `Simulator.calculate_travel_time` (`simulations.py:229-332`): total travel
time (seconds) and route waypoints, `none` on an invalid mode, a missing
station, or any exception inside the `try`. -/
def calculate_travel_time (env : Env) (f : StationFinder) (src dst : Coord)
    (mode : String) (radius_km : ℚ) : Option (ℚ × List Coord) :=
  if mode ≠ "citibike" ∧ mode ≠ "subway" then none
  else
    match (get_network env.dist f mode src radius_km).bind List.head?,
          (get_network env.dist f mode dst radius_km).bind List.head? with
    | some src_station, some dst_station =>
      let src_station_coord : Coord := (src_station.latitude, src_station.longitude)
      let dst_station_coord : Coord := (dst_station.latitude, dst_station.longitude)
      match env.walk src src_station_coord with
      | none => none
      | some walk_1 =>
        if mode = "citibike" then
          match env.bike_directions src_station_coord dst_station_coord with
          | none => none
          | some bike_time =>
            match env.walk dst_station_coord dst with
            | none => none
            | some walk_2 =>
              some (walk_1 + bike_time + walk_2,
                    [src, src_station_coord, dst_station_coord, dst])
        else
          if src_station.station_name ∉ f.original_subway_station_names then
            match (get_network env.dist f mode src_station_coord radius_km).bind
                (fun l => l.get? 1) with
            | none => none
            | some nearest_real_station =>
              let nearest_real_station_coord : Coord :=
                (nearest_real_station.latitude, nearest_real_station.longitude)
              let time_to_real_station : ℚ :=
                nearest_real_station.distance_km / METRO_SPEED * 3600
              match env.transit nearest_real_station_coord dst_station_coord with
              | none => none
              | some transit_time =>
                match env.walk dst_station_coord dst with
                | none => none
                | some walk_2 =>
                  some (walk_1 + time_to_real_station + transit_time + walk_2,
                        [src, src_station_coord, nearest_real_station_coord,
                         dst_station_coord, dst])
          else
            let transit_time : ℚ :=
              match env.transit src_station_coord dst_station_coord with
              | some t => t
              | none =>
                env.dist src_station_coord dst_station_coord / METRO_SPEED * 3600
            match env.walk dst_station_coord dst with
            | none => none
            | some walk_2 =>
              some (walk_1 + transit_time + walk_2,
                    [src, src_station_coord, dst_station_coord, dst])
    | _, _ => none

/-- A concrete oracle environment used to instantiate theorems on closed
inputs: constant distances and durations, no failures. -/
def exEnv : Env :=
  ⟨fun _ _ => 1, fun _ _ => some 10, fun _ _ => some 20, fun _ _ => some 30,
   fun _ _ => some 1, fun _ _ => some 2,
   fun _ _ => false, fun _ _ => false, fun _ _ => false⟩

/-- A concrete station registry with one genuine subway station. -/
def exFinder : StationFinder := ⟨[], [⟨"A", 0, 0⟩], ["A"]⟩

/-- A concrete environment used for the virtual-station scenario. -/
def exEnvV : Env :=
  ⟨fun _ _ => 1,
   fun _ _ => some 10, fun _ _ => some 20, fun _ _ => some 30,
   fun _ _ => some 1, fun _ _ => some 2,
   fun _ _ => false, fun _ _ => false, fun _ _ => false⟩

/-- A concrete station registry whose station `B` is virtual (absent from the
original subway station names). -/
def exFinderV : StationFinder := ⟨[], [⟨"B", 0, 0⟩, ⟨"A", 0, 1⟩], ["A"]⟩

/-- A Python `datetime` instant as consumed by `set_departure_time`: an
absolute day number (day 0 is a Monday, so `weekday = day % 7` matches
Python's `0 = Monday` convention) and the second of the day (`now.time()`). -/
structure PyDateTime where
  day : Nat
  secOfDay : Nat
deriving DecidableEq

/-- Python `datetime.time(hour, minute)` as a second-of-day count. -/
def timeOfDay (hour minute : Nat) : Nat := hour * 3600 + minute * 60

/-- `Simulator.set_departure_time` (`simulations.py:210-226`):
`days_until_monday = (0 - now.weekday() + 7) % 7` (which equals
`(7 - weekday) % 7` on `0 ≤ weekday ≤ 6`), rolled a full week when today is
Monday strictly past the configured time, combined with the configured
hour/minute. -/
def set_departure_time (now : PyDateTime) (hour minute : Nat) : PyDateTime :=
  let days_until_monday := (7 - now.day % 7) % 7
  let days_until_monday :=
    if days_until_monday = 0 ∧ now.secOfDay > timeOfDay hour minute then 7
    else days_until_monday
  ⟨now.day + days_until_monday, timeOfDay hour minute⟩

/-- Absolute timestamp in seconds, to compare instants. -/
def PyDateTime.timestamp (d : PyDateTime) : Nat := d.day * 86400 + d.secOfDay

theorem writeVal_writeVal (x old : Option ℚ) :
    writeVal x (writeVal x old) = writeVal x old := by
  cases x <;> rfl

theorem blockVal_blockVal {α β : Type*} (f : α → β → Option ℚ) (bo : List α)
    (bd : List β) (bi bj I J : Nat) (old : Option ℚ) :
    blockVal f bo bd bi bj I J (blockVal f bo bd bi bj I J old) =
      blockVal f bo bd bi bj I J old := by
  unfold blockVal
  split
  · exact writeVal_writeVal _ _
  · rfl

theorem parseRow_untouched {β : Type*} (f : β → Option ℚ) (bd : List β)
    (r c : Nat) (M : Mat) (I J : Nat)
    (h : I ≠ r ∨ J < c ∨ c + bd.length ≤ J) :
    parseRow f bd r c M I J = M I J := by
  induction bd generalizing c M with
  | nil => rfl
  | cons d rest ih =>
    have hne : ¬ (I = r ∧ J = c) := by
      rcases h with h | h | h
      · exact fun hc => h hc.1
      · exact fun hc => by omega
      · simp only [List.length_cons] at h
        exact fun hc => by omega
    have h' : I ≠ r ∨ J < c + 1 ∨ c + 1 + rest.length ≤ J := by
      rcases h with h | h | h
      · exact Or.inl h
      · exact Or.inr (Or.inl (by omega))
      · simp only [List.length_cons] at h
        exact Or.inr (Or.inr (by omega))
    cases hfd : f d with
    | some v =>
      simp only [parseRow, hfd]
      rw [ih _ _ h']
      simp only [updCell, if_neg hne]
    | none =>
      simp only [parseRow, hfd]
      exact ih _ _ h'

theorem parseRow_write {β : Type*} (f : β → Option ℚ) (bd : List β)
    (r c : Nat) (M : Mat) (J : Nat) (hc : c ≤ J) :
    parseRow f bd r c M r J = writeVal ((bd[J - c]?).bind f) (M r J) := by
  induction bd generalizing c M with
  | nil => simp [parseRow, writeVal]
  | cons d rest ih =>
    rcases Nat.eq_or_lt_of_le hc with heq | hlt
    · subst heq
      cases hfd : f d with
      | some v =>
        simp only [parseRow, hfd]
        rw [parseRow_untouched _ _ _ _ _ _ _ (Or.inr (Or.inl (by omega)))]
        simp [updCell, writeVal, hfd]
      | none =>
        simp only [parseRow, hfd]
        rw [parseRow_untouched _ _ _ _ _ _ _ (Or.inr (Or.inl (by omega)))]
        simp [writeVal, hfd]
    · have hc1 : c + 1 ≤ J := hlt
      have hidx : (d :: rest)[J - c]? = rest[J - (c + 1)]? := by
        have : J - c = (J - (c + 1)) + 1 := by omega
        rw [this]
        simp
      cases hfd : f d with
      | some v =>
        simp only [parseRow, hfd]
        rw [ih _ _ hc1, hidx]
        have hupd : updCell M r c v r J = M r J := by
          simp only [updCell]
          rw [if_neg]
          exact fun hc' => by omega
        rw [hupd]
      | none =>
        simp only [parseRow, hfd]
        rw [ih _ _ hc1, hidx]

theorem parseRows_lt_row {α β : Type*} (f : α → β → Option ℚ) (bo : List α)
    (bd : List β) (r c : Nat) (M : Mat) (I J : Nat) (h : I < r) :
    parseRows f bo bd r c M I J = M I J := by
  induction bo generalizing r M with
  | nil => rfl
  | cons o rest ih =>
    unfold parseRows
    rw [ih _ _ (by omega)]
    exact parseRow_untouched _ _ _ _ _ _ _ (Or.inl (by omega))

theorem parseRows_lt_col {α β : Type*} (f : α → β → Option ℚ) (bo : List α)
    (bd : List β) (r c : Nat) (M : Mat) (I J : Nat) (h : J < c) :
    parseRows f bo bd r c M I J = M I J := by
  induction bo generalizing r M with
  | nil => rfl
  | cons o rest ih =>
    unfold parseRows
    rw [ih _ _]
    exact parseRow_untouched _ _ _ _ _ _ _ (Or.inr (Or.inl h))

theorem parseRows_ge {α β : Type*} (f : α → β → Option ℚ) (bo : List α)
    (bd : List β) (r c : Nat) (M : Mat) (I J : Nat) (hr : r ≤ I) (hc : c ≤ J) :
    parseRows f bo bd r c M I J =
      writeVal ((bo[I - r]?).bind fun o => (bd[J - c]?).bind fun d => f o d)
        (M I J) := by
  induction bo generalizing r M with
  | nil => simp [parseRows, writeVal]
  | cons o rest ih =>
    rcases Nat.eq_or_lt_of_le hr with heq | hlt
    · subst heq
      unfold parseRows
      rw [parseRows_lt_row _ _ _ _ _ _ _ _ (by omega)]
      rw [parseRow_write _ _ _ _ _ _ hc]
      simp
    · have hr1 : r + 1 ≤ I := hlt
      have hidx : (o :: rest)[I - r]? = rest[I - (r + 1)]? := by
        have : I - r = (I - (r + 1)) + 1 := by omega
        rw [this]
        simp
      unfold parseRows
      rw [ih _ _ hr1, hidx]
      rw [parseRow_untouched _ _ _ _ _ _ _ (Or.inl (by omega))]

/-- Full cell-level description of one sub-batch write. -/
theorem parseRows_eval {α β : Type*} (f : α → β → Option ℚ) (bo : List α)
    (bd : List β) (r c : Nat) (M : Mat) (I J : Nat) :
    parseRows f bo bd r c M I J = blockVal f bo bd r c I J (M I J) := by
  unfold blockVal
  split
  · next h => exact parseRows_ge f bo bd r c M I J h.1 h.2
  · next h =>
    rcases Nat.lt_or_ge I r with h' | h'
    · exact parseRows_lt_row _ _ _ _ _ _ _ _ h'
    · rcases Nat.lt_or_ge J c with h'' | h''
      · exact parseRows_lt_col _ _ _ _ _ _ _ _ h''
      · exact absurd ⟨h', h''⟩ h

theorem writeVal_none (x : Option ℚ) : writeVal x none = x := by
  cases x <;> rfl

theorem blockVal_untouched_col {α β : Type*} (f : α → β → Option ℚ) (bo : List α)
    (bd : List β) (bi bj I J : Nat) (old : Option ℚ)
    (h : J < bj ∨ bj + bd.length ≤ J) :
    blockVal f bo bd bi bj I J old = old := by
  unfold blockVal
  split
  · next hc =>
    rcases h with h | h
    · omega
    · rw [List.getElem?_eq_none (by omega : bd.length ≤ J - bj)]
      have : ((bo[I - bi]?).bind fun o => (none : Option β).bind fun d => f o d) = none := by
        cases bo[I - bi]? <;> rfl
      rw [this]
      rfl
  · rfl

theorem blockVal_untouched_row {α β : Type*} (f : α → β → Option ℚ) (bo : List α)
    (bd : List β) (bi bj I J : Nat) (old : Option ℚ)
    (h : I < bi ∨ bi + bo.length ≤ I) :
    blockVal f bo bd bi bj I J old = old := by
  unfold blockVal
  split
  · next hc =>
    rcases h with h | h
    · omega
    · rw [List.getElem?_eq_none (by omega : bo.length ≤ I - bi)]
      rfl
  · rfl

/-- An index `J` lies outside the half-open band `[k·s, k·s + s)` of any
multiple `k·s` other than `(J / s)·s`. -/
theorem off_block {s J k : Nat} (hs : 1 ≤ s) (hne : k * s ≠ J / s * s) :
    J < k * s ∨ k * s + s ≤ J := by
  have h1 : J / s * s ≤ J := Nat.div_mul_le_self _ _
  have h2 : s * (J / s) + J % s = J := Nat.div_add_mod J s
  have h3 : J % s < s := Nat.mod_lt _ (by omega)
  rcases Nat.lt_trichotomy k (J / s) with h | h | h
  · right
    have : (k + 1) * s ≤ J / s * s := Nat.mul_le_mul_right _ (by omega)
    rw [Nat.succ_mul] at this
    omega
  · exact absurd (by rw [h]) hne
  · left
    have : (J / s + 1) * s ≤ k * s := Nat.mul_le_mul_right _ (by omega)
    rw [Nat.succ_mul] at this
    nlinarith [Nat.mul_comm s (J / s)]

theorem slice_length_le {α : Type*} (l : List α) (a s : Nat) :
    ((l.drop a).take s).length ≤ s := by
  rw [List.length_take]
  exact min_le_left _ _

theorem runBlocksJ_cons {α β : Type*} (f : α → β → Option ℚ) (fail : Nat → Nat → Bool)
    (origins : List α) (dests : List β) (maxO maxD bi bj : Nat) (rest : List Nat)
    (M : Mat) :
    runBlocksJ f fail origins dests maxO maxD bi (bj :: rest) M =
      runBlocksJ f fail origins dests maxO maxD bi rest
        (if fail bi bj then M
         else parseRows f ((origins.drop bi).take maxO)
           ((dests.drop bj).take maxD) bi bj M) := rfl

theorem runBlocksI_cons {α β : Type*} (f : α → β → Option ℚ) (fail : Nat → Nat → Bool)
    (origins : List α) (dests : List β) (maxO maxD bi : Nat) (rest : List Nat)
    (M : Mat) :
    runBlocksI f fail origins dests maxO maxD (bi :: rest) M =
      runBlocksI f fail origins dests maxO maxD rest
        (runBlocksJ f fail origins dests maxO maxD bi (rangeStep dests.length maxD) M) := rfl

/-- Cell-level description of the inner (destination) block loop. -/
theorem runBlocksJ_eval {α β : Type*} (f : α → β → Option ℚ) (fail : Nat → Nat → Bool)
    (origins : List α) (dests : List β) (maxO maxD bi : Nat) (bjs : List Nat)
    (M : Mat) (I J : Nat) (hD : 1 ≤ maxD)
    (hmul : ∀ bj ∈ bjs, ∃ k, bj = k * maxD) :
    runBlocksJ f fail origins dests maxO maxD bi bjs M I J =
      if (J / maxD * maxD) ∈ bjs ∧ fail bi (J / maxD * maxD) = false then
        blockVal f ((origins.drop bi).take maxO)
          ((dests.drop (J / maxD * maxD)).take maxD)
          bi (J / maxD * maxD) I J (M I J)
      else M I J := by
  induction bjs generalizing M with
  | nil => simp [runBlocksJ]
  | cons bj rest ih =>
    have hmul' : ∀ x ∈ rest, ∃ k, x = k * maxD :=
      fun x hx => hmul x (List.mem_cons_of_mem _ hx)
    obtain ⟨k, hk⟩ := hmul bj (List.mem_cons_self _ _)
    rw [runBlocksJ_cons, ih _ hmul']
    by_cases hbj : bj = J / maxD * maxD
    · rw [← hbj]
      rcases Bool.eq_false_or_eq_true (fail bi bj) with hfail | hfail
      · have hM' : (if fail bi bj then M
            else parseRows f ((origins.drop bi).take maxO)
              ((dests.drop bj).take maxD) bi bj M) I J = M I J := by
          rw [if_pos hfail]
        rw [hM', if_neg (by simp [hfail]), if_neg (by simp [hfail])]
      · have hM' : (if fail bi bj then M
            else parseRows f ((origins.drop bi).take maxO)
              ((dests.drop bj).take maxD) bi bj M) I J
            = blockVal f ((origins.drop bi).take maxO)
              ((dests.drop bj).take maxD) bi bj I J (M I J) := by
          rw [if_neg (by simp [hfail])]
          exact parseRows_eval _ _ _ _ _ _ _ _
        rw [hM']
        conv_rhs => rw [if_pos ⟨List.mem_cons_self _ _, hfail⟩]
        split
        · exact blockVal_blockVal _ _ _ _ _ _ _ _
        · rfl
    · have hM' : (if fail bi bj then M
          else parseRows f ((origins.drop bi).take maxO)
            ((dests.drop bj).take maxD) bi bj M) I J = M I J := by
        rcases Bool.eq_false_or_eq_true (fail bi bj) with hfail | hfail
        · rw [if_pos hfail]
        · rw [if_neg (by simp [hfail]), parseRows_eval]
          apply blockVal_untouched_col
          rcases off_block hD (k := k) (by rw [← hk]; exact hbj) with h | h
          · exact Or.inl (by omega)
          · right
            have := slice_length_le dests bj maxD
            omega
      rw [hM']
      refine if_congr ?_ rfl rfl
      constructor
      · rintro ⟨hm, hf⟩
        exact ⟨List.mem_cons_of_mem _ hm, hf⟩
      · rintro ⟨hm, hf⟩
        rcases List.mem_cons.mp hm with hm | hm
        · exact absurd hm.symm hbj
        · exact ⟨hm, hf⟩

/-- Cell-level description of the outer (origin) block loop. -/
theorem runBlocksI_eval {α β : Type*} (f : α → β → Option ℚ) (fail : Nat → Nat → Bool)
    (origins : List α) (dests : List β) (maxO maxD : Nat) (bis : List Nat)
    (M : Mat) (I J : Nat) (hO : 1 ≤ maxO) (hD : 1 ≤ maxD)
    (hmul : ∀ bi ∈ bis, ∃ k, bi = k * maxO) :
    runBlocksI f fail origins dests maxO maxD bis M I J =
      if (I / maxO * maxO) ∈ bis ∧ (J / maxD * maxD) ∈ rangeStep dests.length maxD ∧
          fail (I / maxO * maxO) (J / maxD * maxD) = false then
        blockVal f ((origins.drop (I / maxO * maxO)).take maxO)
          ((dests.drop (J / maxD * maxD)).take maxD)
          (I / maxO * maxO) (J / maxD * maxD) I J (M I J)
      else M I J := by
  have hmulJ : ∀ bj ∈ rangeStep dests.length maxD, ∃ k, bj = k * maxD := by
    intro bj hbj
    simp only [rangeStep, List.mem_map] at hbj
    obtain ⟨a, _, ha⟩ := hbj
    exact ⟨a, ha.symm⟩
  induction bis generalizing M with
  | nil => simp [runBlocksI]
  | cons bi rest ih =>
    have hmul' : ∀ x ∈ rest, ∃ k, x = k * maxO :=
      fun x hx => hmul x (List.mem_cons_of_mem _ hx)
    obtain ⟨k, hk⟩ := hmul bi (List.mem_cons_self _ _)
    rw [runBlocksI_cons, ih _ hmul',
      runBlocksJ_eval f fail origins dests maxO maxD bi _ M I J hD hmulJ]
    by_cases hbi : bi = I / maxO * maxO
    · rw [← hbi]
      by_cases hcnd : (J / maxD * maxD) ∈ rangeStep dests.length maxD ∧
          fail bi (J / maxD * maxD) = false
      · rw [if_pos hcnd]
        conv_rhs => rw [if_pos ⟨List.mem_cons_self _ _, hcnd⟩]
        split
        · exact blockVal_blockVal _ _ _ _ _ _ _ _
        · rfl
      · rw [if_neg hcnd, if_neg (by intro hco; exact hcnd hco.2),
          if_neg (by intro hco; exact hcnd hco.2)]
    · have hM' : (if (J / maxD * maxD) ∈ rangeStep dests.length maxD ∧
            fail bi (J / maxD * maxD) = false then
          blockVal f ((origins.drop bi).take maxO)
            ((dests.drop (J / maxD * maxD)).take maxD)
            bi (J / maxD * maxD) I J (M I J)
          else M I J) = M I J := by
        split
        · apply blockVal_untouched_row
          rcases off_block hO (k := k) (by rw [← hk]; exact hbi) with h | h
          · exact Or.inl (by omega)
          · right
            have := slice_length_le origins bi maxO
            omega
        · rfl
      rw [hM']
      refine if_congr ?_ rfl rfl
      constructor
      · rintro ⟨hm, hf⟩
        exact ⟨List.mem_cons_of_mem _ hm, hf⟩
      · rintro ⟨hm, hf⟩
        rcases List.mem_cons.mp hm with hm | hm
        · exact absurd hm.symm hbi
        · exact ⟨hm, hf⟩

theorem rangeStep_mem_div {n s I : Nat} (hs : 1 ≤ s) (hI : I < n) :
    I / s * s ∈ rangeStep n s := by
  simp only [rangeStep, List.mem_map]
  refine ⟨I / s, List.mem_range.mpr ?_, rfl⟩
  have h1 : I / s * s ≤ I := Nat.div_mul_le_self _ _
  have h2 : I / s ≤ (n - 1) / s := by
    rw [Nat.le_div_iff_mul_le (by omega)]
    omega
  have h3 : (n + s - 1) / s = (n - 1) / s + 1 := by
    have : n + s - 1 = (n - 1) + s := by omega
    rw [this, Nat.add_div_right _ (by omega)]
  omega

theorem one_le_maxO {m : Nat} (hm : 1 ≤ m) : 1 ≤ min 25 (Nat.sqrt m) := by
  have : 0 < Nat.sqrt m := Nat.sqrt_pos.mpr (by omega)
  omega

theorem one_le_maxD {m : Nat} (hm : 1 ≤ m) :
    1 ≤ min 25 (m / min 25 (Nat.sqrt m)) := by
  have h1 : 1 ≤ min 25 (Nat.sqrt m) := one_le_maxO hm
  have h2 : min 25 (Nat.sqrt m) ≤ m :=
    le_trans (min_le_right _ _) (Nat.sqrt_le_self m)
  have h3 : 1 ≤ m / min 25 (Nat.sqrt m) :=
    (Nat.one_le_div_iff (by omega)).mpr h2
  omega

theorem slice_getElem? {α : Type*} (l : List α) (s I : Nat) (hs : 1 ≤ s)
    (hI : I < l.length) :
    ((l.drop (I / s * s)).take s)[I - I / s * s]? = l[I]? := by
  rw [List.getElem?_take, List.getElem?_drop]
  have h1 : I / s * s ≤ I := Nat.div_mul_le_self _ _
  have h2 : I - I / s * s < s := by
    have hmod : s * (I / s) + I % s = I := Nat.div_add_mod I s
    have : I % s < s := Nat.mod_lt _ (by omega)
    have hcomm : s * (I / s) = I / s * s := Nat.mul_comm _ _
    omega
  rw [if_pos h2]
  congr 1
  omega

/-- Closed form of `batch_distance_matrix_call` for an in-range cell `(I, J)`:
the cell holds the element result for origin `I` and destination `J`, unless
the request of the sub-batch containing the cell raised, in which case the
cell keeps its initial `NaN`. -/
theorem batch_cell_eval {α β : Type*} (f : α → β → Option ℚ) (fail : Nat → Nat → Bool)
    (origins : List α) (dests : List β) (m : Nat) (hm : 1 ≤ m) (I J : Nat)
    (hI : I < origins.length) (hJ : J < dests.length) :
    batch_distance_matrix_call f fail origins dests m I J =
      if fail (I / min 25 (Nat.sqrt m) * min 25 (Nat.sqrt m))
          (J / min 25 (m / min 25 (Nat.sqrt m)) * min 25 (m / min 25 (Nat.sqrt m))) then
        none
      else f (origins.get ⟨I, hI⟩) (dests.get ⟨J, hJ⟩) := by
  have hO : 1 ≤ min 25 (Nat.sqrt m) := one_le_maxO hm
  have hD : 1 ≤ min 25 (m / min 25 (Nat.sqrt m)) := one_le_maxD hm
  set maxO := min 25 (Nat.sqrt m) with hmaxO
  set maxD := min 25 (m / min 25 (Nat.sqrt m)) with hmaxD
  have hmulI : ∀ bi ∈ rangeStep origins.length maxO, ∃ k, bi = k * maxO := by
    intro bi hbi
    simp only [rangeStep, List.mem_map] at hbi
    obtain ⟨a, _, ha⟩ := hbi
    exact ⟨a, ha.symm⟩
  show runBlocksI f fail origins dests maxO maxD
      (rangeStep origins.length maxO) (fun _ _ => none) I J = _
  rw [runBlocksI_eval f fail origins dests maxO maxD _ _ I J hO hD hmulI]
  rcases Bool.eq_false_or_eq_true (fail (I / maxO * maxO) (J / maxD * maxD)) with
    hfail | hfail
  · rw [if_neg (by simp [hfail]), if_pos hfail]
  · rw [if_pos ⟨rangeStep_mem_div hO hI, rangeStep_mem_div hD hJ, hfail⟩,
      if_neg (by simp [hfail])]
    unfold blockVal
    rw [if_pos ⟨Nat.div_mul_le_self _ _, Nat.div_mul_le_self _ _⟩]
    rw [slice_getElem? origins maxO I hO hI, slice_getElem? dests maxD J hD hJ]
    rw [List.getElem?_eq_getElem hI, List.getElem?_eq_getElem hJ]
    exact writeVal_none _

/-- A cell outside the `len(origins) × len(destinations)` grid is never
written and keeps its initial `NaN`. -/
theorem batch_out_of_range {α β : Type*} (f : α → β → Option ℚ)
    (fail : Nat → Nat → Bool) (origins : List α) (dests : List β) (m : Nat)
    (hm : 1 ≤ m) (I J : Nat) (h : origins.length ≤ I ∨ dests.length ≤ J) :
    batch_distance_matrix_call f fail origins dests m I J = none := by
  have hO : 1 ≤ min 25 (Nat.sqrt m) := one_le_maxO hm
  have hD : 1 ≤ min 25 (m / min 25 (Nat.sqrt m)) := one_le_maxD hm
  set maxO := min 25 (Nat.sqrt m) with hmaxO
  set maxD := min 25 (m / min 25 (Nat.sqrt m)) with hmaxD
  have hmulI : ∀ bi ∈ rangeStep origins.length maxO, ∃ k, bi = k * maxO := by
    intro bi hbi
    simp only [rangeStep, List.mem_map] at hbi
    obtain ⟨a, _, ha⟩ := hbi
    exact ⟨a, ha.symm⟩
  show runBlocksI f fail origins dests maxO maxD
      (rangeStep origins.length maxO) (fun _ _ => none) I J = none
  rw [runBlocksI_eval f fail origins dests maxO maxD _ _ I J hO hD hmulI]
  split
  · unfold blockVal
    split
    · next hc =>
      rcases h with h | h
      · have hlen : ((origins.drop (I / maxO * maxO)).take maxO).length ≤
            I - I / maxO * maxO := by
          rw [List.length_take, List.length_drop]
          have : I / maxO * maxO ≤ I := Nat.div_mul_le_self _ _
          omega
        rw [List.getElem?_eq_none hlen]
        rfl
      · have hlen : ((dests.drop (J / maxD * maxD)).take maxD).length ≤
            J - J / maxD * maxD := by
          rw [List.length_take, List.length_drop]
          have : J / maxD * maxD ≤ J := Nat.div_mul_le_self _ _
          omega
        rw [List.getElem?_eq_none hlen]
        cases ((origins.drop (I / maxO * maxO)).take maxO)[I - I / maxO * maxO]? <;> rfl
    · rfl
  · rfl

/-- C2: for every origin list, destination list and `maxElements ≥ 1`, with the
element results a fixed function of the endpoints and no request raising, the
matrix assembled by `batch_distance_matrix_call` from quota-respecting
sub-batches equals, cell for cell, the matrix of a single unbounded call over
the full lists: entry `(i, j)` holds the duration for origin `i` and
destination `j` when its status is `OK`, and `NaN` otherwise. -/
theorem batch_matches_single_unbounded_call {α β : Type*} (f : α → β → Option ℚ)
    (origins : List α) (dests : List β) (m : Nat) (hm : 1 ≤ m) :
    batch_distance_matrix_call f (fun _ _ => false) origins dests m =
      single_unbounded_call f origins dests := by
  funext I J
  by_cases hI : I < origins.length
  · by_cases hJ : J < dests.length
    · rw [batch_cell_eval f _ origins dests m hm I J hI hJ, if_neg (by simp)]
      simp only [single_unbounded_call]
      rw [dif_pos ⟨hI, hJ⟩]
    · rw [batch_out_of_range f _ origins dests m hm I J (Or.inr (by omega))]
      simp only [single_unbounded_call]
      rw [dif_neg (by intro hc; exact hJ hc.2)]
  · rw [batch_out_of_range f _ origins dests m hm I J (Or.inl (by omega))]
    simp only [single_unbounded_call]
    rw [dif_neg (by intro hc; exact hI hc.1)]

theorem batch_matches_single_unbounded_call_witness :
    batch_distance_matrix_call (fun a b : ℚ => some (a + b)) (fun _ _ => false)
        [(1 : ℚ), 2, 3] [(10 : ℚ), 20] 5 =
      single_unbounded_call (fun a b : ℚ => some (a + b)) [(1 : ℚ), 2, 3]
        [(10 : ℚ), 20] :=
  batch_matches_single_unbounded_call _ _ _ 5 (by norm_num)

/-- C5: every sub-request issued by `batch_distance_matrix_call` contains at
most `min 25 ⌊√maxElements⌋` origins and at most
`min 25 (maxElements / batchOrigins)` destinations, and its element count
(origins × destinations) never exceeds `maxElements`. -/
theorem batch_requests_respect_quota {α β : Type*} (origins : List α)
    (dests : List β) (m : Nat) (hm : 1 ≤ m) :
    ∀ req ∈ batch_requests origins dests m,
      req.1.length ≤ min 25 (Nat.sqrt m) ∧
      req.2.length ≤ min 25 (m / min 25 (Nat.sqrt m)) ∧
      req.1.length * req.2.length ≤ m := by
  intro req hreq
  simp only [batch_requests, List.mem_flatMap, List.mem_map] at hreq
  obtain ⟨bi, _, bj, _, hre⟩ := hreq
  rw [← hre]
  refine ⟨slice_length_le _ _ _, slice_length_le _ _ _, ?_⟩
  have h1 : ((origins.drop bi).take (min 25 (Nat.sqrt m))).length ≤
      min 25 (Nat.sqrt m) := slice_length_le _ _ _
  have h2 : ((dests.drop bj).take (min 25 (m / min 25 (Nat.sqrt m)))).length ≤
      min 25 (m / min 25 (Nat.sqrt m)) := slice_length_le _ _ _
  calc ((origins.drop bi).take (min 25 (Nat.sqrt m))).length *
        ((dests.drop bj).take (min 25 (m / min 25 (Nat.sqrt m)))).length
      ≤ min 25 (Nat.sqrt m) * min 25 (m / min 25 (Nat.sqrt m)) :=
        Nat.mul_le_mul h1 h2
    _ ≤ min 25 (Nat.sqrt m) * (m / min 25 (Nat.sqrt m)) :=
        Nat.mul_le_mul_left _ (min_le_right _ _)
    _ = (m / min 25 (Nat.sqrt m)) * min 25 (Nat.sqrt m) := Nat.mul_comm _ _
    _ ≤ m := Nat.div_mul_le_self _ _

theorem batch_requests_respect_quota_witness :
    ([(1 : ℚ), 2].length ≤ min 25 (Nat.sqrt 5) ∧
      [(10 : ℚ), 20].length ≤ min 25 (5 / min 25 (Nat.sqrt 5)) ∧
      [(1 : ℚ), 2].length * [(10 : ℚ), 20].length ≤ 5) :=
  batch_requests_respect_quota [(1 : ℚ), 2, 3] [(10 : ℚ), 20] 5 (by norm_num)
    ([(1 : ℚ), 2], [(10 : ℚ), 20]) (by
      have h5 : Nat.sqrt 5 = 2 := by norm_num
      simp only [batch_requests, rangeStep, h5]
      decide)

/-- C6: failure isolation in `batch_distance_matrix_call`.  First conjunct: an
in-range cell's value depends only on the element result of its own
(origin, destination) pair and on whether the request of its own sub-block
raised — so a per-element non-`OK` status affects only its own cell, and a
request-level exception leaves all cells of other sub-blocks unaffected while
the remaining sub-batches are still issued.  Second conjunct: every cell of a
sub-block whose request raised is `NaN` (unresolved). -/
theorem batch_failure_isolation {α β : Type*} (f g : α → β → Option ℚ)
    (fail fail' : Nat → Nat → Bool) (origins : List α) (dests : List β)
    (m : Nat) (hm : 1 ≤ m) (I J : Nat) (hI : I < origins.length)
    (hJ : J < dests.length) :
    (fail (I / min 25 (Nat.sqrt m) * min 25 (Nat.sqrt m))
          (J / min 25 (m / min 25 (Nat.sqrt m)) * min 25 (m / min 25 (Nat.sqrt m))) =
        fail' (I / min 25 (Nat.sqrt m) * min 25 (Nat.sqrt m))
          (J / min 25 (m / min 25 (Nat.sqrt m)) * min 25 (m / min 25 (Nat.sqrt m))) →
      f (origins.get ⟨I, hI⟩) (dests.get ⟨J, hJ⟩) =
        g (origins.get ⟨I, hI⟩) (dests.get ⟨J, hJ⟩) →
      batch_distance_matrix_call f fail origins dests m I J =
        batch_distance_matrix_call g fail' origins dests m I J) ∧
    (fail (I / min 25 (Nat.sqrt m) * min 25 (Nat.sqrt m))
          (J / min 25 (m / min 25 (Nat.sqrt m)) * min 25 (m / min 25 (Nat.sqrt m))) =
        true →
      batch_distance_matrix_call f fail origins dests m I J = none) := by
  constructor
  · intro hfe hfg
    rw [batch_cell_eval f fail origins dests m hm I J hI hJ,
      batch_cell_eval g fail' origins dests m hm I J hI hJ, hfe, hfg]
  · intro hfail
    rw [batch_cell_eval f fail origins dests m hm I J hI hJ, if_pos hfail]

theorem batch_failure_isolation_witness :
    batch_distance_matrix_call (fun a b : ℚ => some (a + b)) (fun _ _ => true)
      [(1 : ℚ)] [(2 : ℚ)] 1 0 0 = none :=
  (batch_failure_isolation (fun a b : ℚ => some (a + b))
      (fun a b : ℚ => some (a + b)) (fun _ _ => true) (fun _ _ => true)
      [(1 : ℚ)] [(2 : ℚ)] 1 (by norm_num) 0 0 (by norm_num) (by norm_num)).2 rfl

theorem within_network_mem_le {dist : Coord → Coord → ℚ} {stations : List Station}
    {lat lng radius : ℚ} {s : StationResult}
    (hs : s ∈ within_network dist stations lat lng radius) :
    s.distance_km ≤ radius := by
  have hmem : s ∈ stations.filterMap fun row =>
      let distance := dist (lat, lng) (row.latitude, row.longitude)
      if distance ≤ radius then
        some ⟨row.station_name, row.latitude, row.longitude, distance⟩
      else none :=
    (List.perm_insertionSort _ _).mem_iff.mp hs
  rw [List.mem_filterMap] at hmem
  obtain ⟨row, _, hrow⟩ := hmem
  by_cases hd : dist (lat, lng) (row.latitude, row.longitude) ≤ radius
  · simp only [if_pos hd] at hrow
    cases hrow
    exact hd
  · simp only [if_neg hd] at hrow
    cases hrow

theorem within_network_sorted (dist : Coord → Coord → ℚ) (stations : List Station)
    (lat lng radius : ℚ) :
    List.Sorted (fun a b : StationResult => a.distance_km ≤ b.distance_km)
      (within_network dist stations lat lng radius) :=
  List.sorted_insertionSort _ _

theorem within_network_empty {dist : Coord → Coord → ℚ} {stations : List Station}
    {lat lng radius : ℚ}
    (h : ∀ st ∈ stations, ¬ dist (lat, lng) (st.latitude, st.longitude) ≤ radius) :
    within_network dist stations lat lng radius = [] := by
  unfold within_network
  have hnil : (stations.filterMap fun row =>
      let distance := dist (lat, lng) (row.latitude, row.longitude)
      if distance ≤ radius then
        some (⟨row.station_name, row.latitude, row.longitude, distance⟩ : StationResult)
      else none) = [] := by
    rw [List.filterMap_eq_nil_iff]
    intro row hrow
    simp only [if_neg (h row hrow)]
  rw [hnil]
  rfl

/-- C3: every station returned by `find_stations_within_radius` — for both the
bike and the subway network — has distance from the center at most the radius,
each network's result is sorted ascending by that distance, and a network with
no station within the radius yields an empty result. -/
theorem find_stations_within_radius_correct (dist : Coord → Coord → ℚ)
    (f : StationFinder) (lat lng radius : ℚ) :
    (∀ s ∈ (find_stations_within_radius dist f lat lng radius).1,
        s.distance_km ≤ radius) ∧
    (∀ s ∈ (find_stations_within_radius dist f lat lng radius).2,
        s.distance_km ≤ radius) ∧
    List.Sorted (fun a b : StationResult => a.distance_km ≤ b.distance_km)
      (find_stations_within_radius dist f lat lng radius).1 ∧
    List.Sorted (fun a b : StationResult => a.distance_km ≤ b.distance_km)
      (find_stations_within_radius dist f lat lng radius).2 ∧
    ((∀ st ∈ f.citibike_stations,
        ¬ dist (lat, lng) (st.latitude, st.longitude) ≤ radius) →
      (find_stations_within_radius dist f lat lng radius).1 = []) ∧
    ((∀ st ∈ f.subway_stations,
        ¬ dist (lat, lng) (st.latitude, st.longitude) ≤ radius) →
      (find_stations_within_radius dist f lat lng radius).2 = []) := by
  refine ⟨fun s hs => within_network_mem_le hs, fun s hs => within_network_mem_le hs,
    within_network_sorted _ _ _ _ _, within_network_sorted _ _ _ _ _,
    fun h => within_network_empty h, fun h => within_network_empty h⟩

theorem find_stations_within_radius_correct_witness :
    find_stations_within_radius (fun _ _ => (1 : ℚ))
      ⟨[⟨"a", 0, 0⟩], [⟨"b", 2, 3⟩], []⟩ 0 0 0 = ([], []) := by
  have h := find_stations_within_radius_correct (fun _ _ => (1 : ℚ))
    ⟨[⟨"a", 0, 0⟩], [⟨"b", 2, 3⟩], []⟩ 0 0 0
  have h1 := h.2.2.2.2.1 (by intro st hst; norm_num)
  have h2 := h.2.2.2.2.2 (by intro st hst; norm_num)
  have hpair : find_stations_within_radius (fun _ _ => (1 : ℚ))
      ⟨[⟨"a", 0, 0⟩], [⟨"b", 2, 3⟩], []⟩ 0 0 0 =
      ((find_stations_within_radius (fun _ _ => (1 : ℚ))
          ⟨[⟨"a", 0, 0⟩], [⟨"b", 2, 3⟩], []⟩ 0 0 0).1,
       (find_stations_within_radius (fun _ _ => (1 : ℚ))
          ⟨[⟨"a", 0, 0⟩], [⟨"b", 2, 3⟩], []⟩ 0 0 0).2) := rfl
  rw [hpair, h1, h2]

theorem getD_map_range {γ : Type*} (n : Nat) (g : Nat → γ) (d : γ) (i : Nat) :
    ((List.range n).map g).getD i d = if i < n then g i else d := by
  rw [List.getD_eq_getElem?_getD, List.getElem?_map]
  by_cases h : i < n
  · rw [List.getElem?_range h]
    simp [h]
  · rw [List.getElem?_eq_none (by rw [List.length_range]; omega)]
    simp [h]

theorem matrix_of_cell_time_getD (n m : Nat)
    (cell : Nat → Nat → Option ℚ × List Coord) (i j : Nat) :
    ((matrix_of_cell n m cell).1.getD i []).getD j none =
      if i < n ∧ j < m then (cell i j).1 else none := by
  unfold matrix_of_cell
  rw [getD_map_range]
  by_cases hi : i < n
  · rw [if_pos hi, getD_map_range]
    by_cases hj : j < m
    · rw [if_pos hj, if_pos ⟨hi, hj⟩]
    · rw [if_neg hj, if_neg (by tauto)]
  · rw [if_neg hi, if_neg (by tauto)]
    simp

theorem matrix_of_cell_route_getD (n m : Nat)
    (cell : Nat → Nat → Option ℚ × List Coord) (i j : Nat) :
    ((matrix_of_cell n m cell).2.getD i []).getD j [] =
      if i < n ∧ j < m then (cell i j).2 else [] := by
  unfold matrix_of_cell
  rw [getD_map_range]
  by_cases hi : i < n
  · rw [if_pos hi, getD_map_range]
    by_cases hj : j < m
    · rw [if_pos hj, if_pos ⟨hi, hj⟩]
    · rw [if_neg hj, if_neg (by tauto)]
  · rw [if_neg hi, if_neg (by tauto)]
    simp

theorem subway_cell_inv (env : Env) (f : StationFinder) (mode : String)
    (sp ep : List Pt) (srcs dsts : List (Option StationResult)) (i j : Nat) :
    ((subway_cell env f mode sp ep srcs dsts i j).2 ≠ []) ↔
      ((subway_cell env f mode sp ep srcs dsts i j).1).isSome := by
  unfold subway_cell
  repeat' split <;> try simp

theorem citibike_cell_inv (sp ep : List Pt) (vs vd : List Nat)
    (M1 M2 M3 : Mat) (cs cd : List Coord) (i j : Nat) :
    ((citibike_cell sp ep vs vd M1 M2 M3 cs cd i j).2 ≠ []) ↔
      ((citibike_cell sp ep vs vd M1 M2 M3 cs cd i j).1).isSome := by
  unfold citibike_cell
  repeat' split <;> try simp

/-- C1: for every pair of input point tables and every mode, the route cell at
`(i, j)` of `calculate_travel_time_matrix` is a non-empty waypoint list iff
the time cell at `(i, j)` is not `NaN`. -/
theorem route_nonempty_iff_time_not_nan (env : Env) (f : StationFinder)
    (mode : String) (start_points end_points : List Pt) (i j : Nat) :
    ((((calculate_travel_time_matrix env f mode start_points end_points).2.getD
        i []).getD j []) ≠ []) ↔
    ((((calculate_travel_time_matrix env f mode start_points end_points).1.getD
        i []).getD j none).isSome) := by
  simp only [calculate_travel_time_matrix]
  split
  · rw [matrix_of_cell_time_getD, matrix_of_cell_route_getD]
    split <;> simp
  · split
    · rw [matrix_of_cell_time_getD, matrix_of_cell_route_getD]
      split
      · exact citibike_cell_inv _ _ _ _ _ _ _ _ _ _ _
      · simp
    · rw [matrix_of_cell_time_getD, matrix_of_cell_route_getD]
      split
      · exact subway_cell_inv _ _ _ _ _ _ _ _ _
      · simp

theorem matrix_of_cell_shape (n m : Nat)
    (cell : Nat → Nat → Option ℚ × List Coord) :
    (matrix_of_cell n m cell).1.length = n ∧
    (matrix_of_cell n m cell).2.length = n ∧
    (∀ row ∈ (matrix_of_cell n m cell).1, row.length = m) ∧
    (∀ row ∈ (matrix_of_cell n m cell).2, row.length = m) := by
  refine ⟨by simp [matrix_of_cell], by simp [matrix_of_cell], ?_, ?_⟩ <;>
  · intro row hrow
    simp only [matrix_of_cell, List.mem_map, List.mem_range] at hrow
    obtain ⟨a, _, ha⟩ := hrow
    rw [← ha]
    simp

theorem calculate_travel_time_matrix_eq_matrix_of_cell (env : Env)
    (f : StationFinder) (mode : String) (starts ends : List Pt) :
    ∃ cell, calculate_travel_time_matrix env f mode starts ends =
      matrix_of_cell starts.length ends.length cell := by
  simp only [calculate_travel_time_matrix]
  split
  · exact ⟨_, rfl⟩
  · split
    · exact ⟨_, rfl⟩
    · exact ⟨_, rfl⟩

/-- C9: for every pair of input point tables, `calculate_travel_time_matrix`
returns a pair of matrices of shape `len(start_points) × len(end_points)`
whatever the oracles do (however many external calls fail); empty inputs give
an empty matrix pair. -/
theorem calculate_travel_time_matrix_shape (env : Env) (f : StationFinder)
    (mode : String) (starts ends : List Pt) :
    (calculate_travel_time_matrix env f mode starts ends).1.length =
      starts.length ∧
    (calculate_travel_time_matrix env f mode starts ends).2.length =
      starts.length ∧
    (∀ row ∈ (calculate_travel_time_matrix env f mode starts ends).1,
      row.length = ends.length) ∧
    (∀ row ∈ (calculate_travel_time_matrix env f mode starts ends).2,
      row.length = ends.length) ∧
    (starts = [] →
      (calculate_travel_time_matrix env f mode starts ends).1 = [] ∧
      (calculate_travel_time_matrix env f mode starts ends).2 = []) ∧
    (ends = [] →
      ∀ row ∈ (calculate_travel_time_matrix env f mode starts ends).1,
        row = []) := by
  obtain ⟨cell, hcell⟩ :=
    calculate_travel_time_matrix_eq_matrix_of_cell env f mode starts ends
  rw [hcell]
  obtain ⟨h1, h2, h3, h4⟩ := matrix_of_cell_shape starts.length ends.length cell
  refine ⟨h1, h2, h3, h4, ?_, ?_⟩
  · intro hse
    subst hse
    constructor
    · exact List.eq_nil_of_length_eq_zero h1
    · exact List.eq_nil_of_length_eq_zero h2
  · intro hee row hrow
    have := h3 row hrow
    rw [hee] at this
    exact List.eq_nil_of_length_eq_zero this

theorem calculate_travel_time_matrix_shape_witness :
    (calculate_travel_time_matrix exEnv exFinder "subway" [] [⟨1, 1⟩]).1 = [] ∧
    (calculate_travel_time_matrix exEnv exFinder "subway" [] [⟨1, 1⟩]).2 = [] :=
  (calculate_travel_time_matrix_shape exEnv exFinder "subway" [] [⟨1, 1⟩]).2.2.2.2.1
    rfl

/-- C7 is refuted on `calculate_travel_time_matrix`: for the invalid mode
`"driving"` the call is not rejected — the subway branch runs, external
routing results are consumed and the matrix cell is computed (non-`NaN`,
non-empty route). -/
theorem matrix_computes_cell_for_invalid_mode :
    ((((calculate_travel_time_matrix exEnv exFinder "driving"
        [⟨0, 0⟩] [⟨1, 1⟩]).1.getD 0 []).getD 0 none).isSome = true) ∧
    ((((calculate_travel_time_matrix exEnv exFinder "driving"
        [⟨0, 0⟩] [⟨1, 1⟩]).2.getD 0 []).getD 0 []) ≠ []) := by
  constructor <;> decide

/-- C7 (amended): `calculate_travel_time` rejects a mode other than
`'citibike'` or `'subway'` with a warning and returns `None` before issuing
any routing request (the result is `none` for every oracle environment);
`calculate_travel_time_matrix` performs no such validation — any mode other
than `'citibike'` is processed by the subway branch, issuing routing requests
and computing matrix cells. -/
theorem calculate_travel_time_rejects_invalid_mode (env : Env)
    (f : StationFinder) (src dst : Coord) (mode : String) (radius_km : ℚ)
    (h1 : mode ≠ "citibike") (h2 : mode ≠ "subway") :
    calculate_travel_time env f src dst mode radius_km = none := by
  unfold calculate_travel_time
  rw [if_pos ⟨h1, h2⟩]

theorem calculate_travel_time_rejects_invalid_mode_witness :
    calculate_travel_time exEnv exFinder (0, 0) (1, 1) "driving" 1 = none :=
  calculate_travel_time_rejects_invalid_mode exEnv exFinder (0, 0) (1, 1)
    "driving" 1 (by decide) (by decide)

/-- C4: in subway mode, when the resolved origin station of a cell is virtual
(its name is absent from the registry's original subway-station names) and the
cell resolves, the produced route is exactly the 5 waypoints origin → virtual
station → second result (`iloc[1]`) of a fresh radius-5 search from the
virtual station's own coordinates → destination station → destination, and the
total duration is exactly the origin walking leg, plus the virtual→real
geometric leg `⌈distance_km / METRO_SPEED · 3600⌉` at metro speed 28 km/h,
plus the real-station transit leg, plus the destination walking leg — each
summand pinned to its oracle result; when the resolved origin station is
genuine, the produced route has exactly 4 waypoints. -/
theorem subway_virtual_station_detour (env : Env) (f : StationFinder)
    (sp ep : List Pt) (srcs dsts : List (Option StationResult)) (i j : Nat)
    (ss ds : StationResult)
    (hs : srcs.getD i none = some ss) (hd : dsts.getD j none = some ds)
    (hres : ((subway_cell env f "subway" sp ep srcs dsts i j).1).isSome) :
    (ss.station_name ∉ f.original_subway_station_names →
      ∃ nr, (within_network env.dist f.subway_stations ss.latitude
          ss.longitude 5)[1]? = some nr ∧
        (subway_cell env f "subway" sp ep srcs dsts i j).2 =
          [((sp.getD i ⟨0, 0⟩).latitude, (sp.getD i ⟨0, 0⟩).longitude),
           (ss.latitude, ss.longitude), (nr.latitude, nr.longitude),
           (ds.latitude, ds.longitude),
           ((ep.getD j ⟨0, 0⟩).latitude, (ep.getD j ⟨0, 0⟩).longitude)] ∧
        (∃ w1 w2,
          env.walk ((sp.getD i ⟨0, 0⟩).latitude, (sp.getD i ⟨0, 0⟩).longitude)
            (ss.latitude, ss.longitude) = some w1 ∧
          env.walk (ds.latitude, ds.longitude)
            ((ep.getD j ⟨0, 0⟩).latitude, (ep.getD j ⟨0, 0⟩).longitude) =
              some w2 ∧
          (subway_cell env f "subway" sp ep srcs dsts i j).1 =
          some (w1 + ((⌈nr.distance_km / METRO_SPEED * 3600⌉ : ℤ) : ℚ) +
            transit_leg env (nr.latitude, nr.longitude)
              (ds.latitude, ds.longitude) + w2))) ∧
    (ss.station_name ∈ f.original_subway_station_names →
      (subway_cell env f "subway" sp ep srcs dsts i j).2.length = 4) := by
  rw [List.getD_eq_getElem?_getD] at hs hd
  rcases hw1 : env.walk ((sp[i]?.getD ⟨0, 0⟩).latitude, (sp[i]?.getD ⟨0, 0⟩).longitude)
      (ss.latitude, ss.longitude) with _ | w1
  · exfalso
    revert hres
    simp [subway_cell, hs, hd, hw1]
  · constructor
    · intro hv
      rcases hnr : (within_network env.dist f.subway_stations ss.latitude
          ss.longitude 5)[1]? with _ | nr
      · exfalso
        revert hres
        simp [subway_cell, hs, hd, hw1, get_network, hv, hnr]
      · rcases hw2 : env.walk (ds.latitude, ds.longitude)
            ((ep[j]?.getD ⟨0, 0⟩).latitude, (ep[j]?.getD ⟨0, 0⟩).longitude) with _ | w2
        · exfalso
          revert hres
          simp [subway_cell, hs, hd, hw1, get_network, hv, hnr, hw2]
        · refine ⟨nr, rfl, ?_, ?_⟩
          · simp [subway_cell, hs, hd, hw1, get_network, hv, hnr, hw2]
          · refine ⟨w1, w2, ?_, ?_, ?_⟩
            · rw [List.getD_eq_getElem?_getD]
              exact hw1
            · rw [List.getD_eq_getElem?_getD]
              exact hw2
            · rcases htr : env.transit (nr.latitude, nr.longitude)
                  (ds.latitude, ds.longitude) with _ | t
              · simp [subway_cell, transit_leg, hs, hd, hw1, get_network,
                  hv, hnr, htr, hw2]
              · simp [subway_cell, transit_leg, hs, hd, hw1, get_network,
                  hv, hnr, htr, hw2]
    · intro hmem
      rcases hw2 : env.walk (ds.latitude, ds.longitude)
          ((ep[j]?.getD ⟨0, 0⟩).latitude, (ep[j]?.getD ⟨0, 0⟩).longitude) with _ | w2
      · exfalso
        revert hres
        simp [subway_cell, hs, hd, hw1, hmem, hw2]
      · simp [subway_cell, hs, hd, hw1, hmem, hw2]

theorem subway_virtual_station_detour_witness :
    (subway_cell exEnvV exFinderV "subway" [⟨0, 0⟩] [⟨0, 1⟩]
      [some ⟨"B", 0, 0, 0⟩] [some ⟨"A", 0, 1, 0⟩] 0 0).2.length = 5 := by
  obtain ⟨nr, hnr, hroute, -⟩ :=
    (subway_virtual_station_detour exEnvV exFinderV [⟨0, 0⟩] [⟨0, 1⟩]
      [some ⟨"B", 0, 0, 0⟩] [some ⟨"A", 0, 1, 0⟩] 0 0 ⟨"B", 0, 0, 0⟩
      ⟨"A", 0, 1, 0⟩ rfl rfl (by decide)).1 (by decide)
  rw [hroute]
  rfl

/-- C8: `set_departure_time` returns a Monday at exactly the configured hour
and minute; the date is today's when today is Monday and the current time of
day is not past the target, and otherwise the next Monday strictly after
today (a full week later when today is a Monday already past the target);
the result is never earlier than `now`. -/
theorem set_departure_time_correct (now : PyDateTime) (hour minute : Nat)
    (hsec : now.secOfDay < 86400) :
    (set_departure_time now hour minute).day % 7 = 0 ∧
    (set_departure_time now hour minute).secOfDay = timeOfDay hour minute ∧
    (now.day % 7 = 0 ∧ now.secOfDay ≤ timeOfDay hour minute →
      (set_departure_time now hour minute).day = now.day) ∧
    (¬ (now.day % 7 = 0 ∧ now.secOfDay ≤ timeOfDay hour minute) →
      now.day < (set_departure_time now hour minute).day ∧
      (set_departure_time now hour minute).day ≤ now.day + 7) ∧
    (now.day % 7 = 0 ∧ now.secOfDay > timeOfDay hour minute →
      (set_departure_time now hour minute).day = now.day + 7) ∧
    now.timestamp ≤ (set_departure_time now hour minute).timestamp := by
  simp only [set_departure_time, PyDateTime.timestamp, timeOfDay]
  have hw : now.day % 7 < 7 := Nat.mod_lt _ (by norm_num)
  by_cases hw0 : now.day % 7 = 0
  · rw [hw0]
    by_cases hpast : now.secOfDay > hour * 3600 + minute * 60
    · rw [if_pos ⟨by norm_num, hpast⟩]
      refine ⟨?_, ?_, ?_, ?_, ?_, ?_⟩ <;> first | exact trivial | omega
    · rw [if_neg (fun hco => hpast hco.2)]
      refine ⟨?_, ?_, ?_, ?_, ?_, ?_⟩ <;> first | exact trivial | omega
  · have h7 : (7 - now.day % 7) % 7 = 7 - now.day % 7 :=
      Nat.mod_eq_of_lt (by omega)
    rw [h7, if_neg (fun hco => hw0 (by omega))]
    refine ⟨?_, ?_, ?_, ?_, ?_, ?_⟩ <;> first | exact trivial | omega

theorem set_departure_time_correct_witness :
    (set_departure_time ⟨3, 100⟩ 8 0).day % 7 = 0 ∧
    (set_departure_time ⟨3, 100⟩ 8 0).secOfDay = timeOfDay 8 0 ∧
    ((3 : Nat) % 7 = 0 ∧ (100 : Nat) ≤ timeOfDay 8 0 →
      (set_departure_time ⟨3, 100⟩ 8 0).day = 3) ∧
    (¬ ((3 : Nat) % 7 = 0 ∧ (100 : Nat) ≤ timeOfDay 8 0) →
      3 < (set_departure_time ⟨3, 100⟩ 8 0).day ∧
      (set_departure_time ⟨3, 100⟩ 8 0).day ≤ 3 + 7) ∧
    ((3 : Nat) % 7 = 0 ∧ (100 : Nat) > timeOfDay 8 0 →
      (set_departure_time ⟨3, 100⟩ 8 0).day = 3 + 7) ∧
    PyDateTime.timestamp ⟨3, 100⟩ ≤
      (set_departure_time ⟨3, 100⟩ 8 0).timestamp :=
  set_departure_time_correct ⟨3, 100⟩ 8 0 (by norm_num)

end NYCTransport
